import Mathlib

/-! ## Verification of the ts2scl compiler core

A shallow embedding, in Lean 4, of the parts of the ts2scl TypeScript-to-SCL
compiler that the specification's testable properties talk about:

* the hardware type hierarchy and assignability check
  (`type-hierarchy` module: `typeInheritanceMap`, `getTypeAncestors`,
  `isTypeAssignable`);
* the value formatter (`TypeExtractor`: `extractValue`, `formatValue`,
  `formatTimeValue`, `getDefaultValue`, ...);
* the expression lowering engine (`SCLExpressionGenerator`:
  `OPERATOR_MAP`, `COMPOUND_OPERATOR_MAP`, `needsParentheses`,
  `generateExpression` and its handlers);
* the statement lowering engine (`SCLStatementGenerator`:
  `generateStatement`, `generateFunctionBody`, the for/if/while/do handlers);
* the phase-1 metadata collection of the orchestrator (`MainCompiler`:
  `processFileAndImports`, `collectMetadataFromFile`).

Modelling conventions:

* JavaScript strings are Lean `String`s; the few string operations the source
  uses (`split('\n')`, `startsWith`, `substring`, `replace(/['"]/g,'')`,
  `padStart`, `repeat`) are re-implemented over `List Char` so that every
  theorem below evaluates by kernel reduction.
* JavaScript numbers that the relevant code paths touch all originate from
  TypeScript numeric literals, which are non-negative decimal integers; they
  are modelled as `Nat`.
* Fallible code (handlers that `throw`) returns `Except String α`.
* The TypeScript type checker is an external capability (the spec's §6); it is
  modelled as an explicit `Checker` record of oracles, and the AST parent
  pointers that a few handlers inspect are passed as explicit context
  (`ParentCtx`, the `isRightSide` / right-hand-side-of-assignment flags, the
  `inFor` flag for `findParentOfType(node, ts.isForStatement)`).
* `generateExpression` consumes explicit fuel so that it is structurally
  recursive (the source recursion always terminates on finite ASTs; every
  theorem instantiates the fuel with a bound larger than the expression
  depth involved).
-/

set_option autoImplicit false

deriving instance DecidableEq for Except

namespace Ts2scl

/-! ## JavaScript string primitives -/

/-- JS `String.prototype.split('\n')`: split at every newline character,
keeping empty segments (`''.split('\n') = ['']`). -/
def splitLinesAux : List Char → List Char → List String
  | [], acc => [String.mk acc.reverse]
  | '\n' :: rest, acc => String.mk acc.reverse :: splitLinesAux rest []
  | c :: rest, acc => splitLinesAux rest (c :: acc)

def splitLines (s : String) : List String := splitLinesAux s.toList []

/-- JS `Array.prototype.join('\n')`. -/
def joinLines : List String → String
  | [] => ""
  | [l] => l
  | l :: rest => l ++ "\n" ++ joinLines rest

/-- JS `Array.prototype.join(sep)`. -/
def joinWith (sep : String) : List String → String
  | [] => ""
  | [l] => l
  | l :: rest => l ++ sep ++ joinWith sep rest

/-- JS `line.trim()` is falsy iff the line is all whitespace. -/
def lineIsBlank (l : String) : Bool := l.toList.all Char.isWhitespace

/-- JS `'    '.repeat(level)`. -/
def indentSpaces (level : Nat) : String := String.mk (List.replicate (4 * level) ' ')

/-- JS `value.startsWith(p)` (ASCII data only in this code base). -/
def strStartsWith (s p : String) : Bool := p.toList.isPrefixOf s.toList

/-- JS `value.substring(n)` (code-unit based; ASCII here). -/
def strDrop (s : String) (n : Nat) : String := String.mk (s.toList.drop n)

/-- JS `value.replace(/['"]/g, '')`. -/
def stripQuotes (s : String) : String :=
  String.mk (s.toList.filter (fun c => !(c == '\'' || c == '\"')))

/-- JS `str.padStart(len, '0')`. -/
def padStart (s : String) (len : Nat) (c : Char) : String :=
  if s.length ≥ len then s else String.mk (List.replicate (len - s.length) c) ++ s

/-- JS `value.toString(16).toUpperCase()` for a non-negative integer. -/
def natToHexUpper (n : Nat) : String :=
  String.mk ((Nat.toDigits 16 n).map Char.toUpper)

/-- JS `condition.replace(/!/g, 'NOT ')`. -/
def replaceBangWithNot (s : String) : String :=
  String.mk (s.toList.foldr
    (fun c acc => if c == '!' then 'N' :: 'O' :: 'T' :: ' ' :: acc else c :: acc) [])

/-! ## The SCL type enumeration

`SCLTypeEnum` from `core/types/types.ts`.  In TypeScript this is a string
enum whose every member has its own name as value (`INT = 'INT'`, ...);
`sclTypeName` and `sclTypeOfName` are the two directions of that
identification (`SCLTypeEnum[x]` lookups). -/

inductive SCLTypeEnum where
  | BOOL | SINT | USINT | INT | UINT | DINT | UDINT | LINT | ULINT | REAL
  | DWORD | TIME | LTIME | DATE | TOD | LTOD | DT | LDT | DTL
  | STRING | WORD | BYTE | VOID
  | ANY | AOM_IDENT
  | HW_ANY | HW_IO | HW_DEVICE | HW_DPMASTER | HW_DPSLAVE | HW_IOSYSTEM
  | HW_SUBMODULE | HW_MODULE | HW_INTERFACE | HW_IEPORT | HW_HSC | HW_PWM | HW_PTO
  | EVENT_ANY | EVENT_ATT | EVENT_HWINT
  | OB_ANY | OB_DELAY | OB_TOD | OB_CYCLIC | OB_ATT | OB_HWINT | OB_TIMEERROR | OB_STARTUP
  | CONN_ANY | CONN_PRG | CONN_OUC | CONN_R_ID
  | DB_ANY | DB_WWW | DB_DYN
  | REMOTE | PORT | RTM | PIP
  deriving DecidableEq, Fintype

def sclTypeName : SCLTypeEnum → String
  | .BOOL => "BOOL" | .SINT => "SINT" | .USINT => "USINT" | .INT => "INT"
  | .UINT => "UINT" | .DINT => "DINT" | .UDINT => "UDINT" | .LINT => "LINT"
  | .ULINT => "ULINT" | .REAL => "REAL" | .DWORD => "DWORD" | .TIME => "TIME"
  | .LTIME => "LTIME" | .DATE => "DATE" | .TOD => "TOD" | .LTOD => "LTOD"
  | .DT => "DT" | .LDT => "LDT" | .DTL => "DTL" | .STRING => "STRING"
  | .WORD => "WORD" | .BYTE => "BYTE" | .VOID => "VOID" | .ANY => "ANY"
  | .AOM_IDENT => "AOM_IDENT" | .HW_ANY => "HW_ANY" | SCLTypeEnum.HW_IO => "HW_IO"
  | .HW_DEVICE => "HW_DEVICE" | .HW_DPMASTER => "HW_DPMASTER"
  | .HW_DPSLAVE => "HW_DPSLAVE" | .HW_IOSYSTEM => "HW_IOSYSTEM"
  | .HW_SUBMODULE => "HW_SUBMODULE" | .HW_MODULE => "HW_MODULE"
  | .HW_INTERFACE => "HW_INTERFACE" | .HW_IEPORT => "HW_IEPORT"
  | .HW_HSC => "HW_HSC" | .HW_PWM => "HW_PWM" | .HW_PTO => "HW_PTO"
  | .EVENT_ANY => "EVENT_ANY" | .EVENT_ATT => "EVENT_ATT"
  | .EVENT_HWINT => "EVENT_HWINT" | .OB_ANY => "OB_ANY" | .OB_DELAY => "OB_DELAY"
  | .OB_TOD => "OB_TOD" | .OB_CYCLIC => "OB_CYCLIC" | .OB_ATT => "OB_ATT"
  | .OB_HWINT => "OB_HWINT" | .OB_TIMEERROR => "OB_TIMEERROR"
  | .OB_STARTUP => "OB_STARTUP" | .CONN_ANY => "CONN_ANY"
  | .CONN_PRG => "CONN_PRG" | .CONN_OUC => "CONN_OUC" | .CONN_R_ID => "CONN_R_ID"
  | .DB_ANY => "DB_ANY" | .DB_WWW => "DB_WWW" | .DB_DYN => "DB_DYN"
  | .REMOTE => "REMOTE" | .PORT => "PORT" | .RTM => "RTM" | .PIP => "PIP"

/-- Source `SCLTypeEnum[name]` — reverse lookup of the string enum. -/
def sclTypeOfName : String → Option SCLTypeEnum
  | "BOOL" => some .BOOL | "SINT" => some .SINT | "USINT" => some .USINT
  | "INT" => some .INT | "UINT" => some .UINT | "DINT" => some .DINT
  | "UDINT" => some .UDINT | "LINT" => some .LINT | "ULINT" => some .ULINT
  | "REAL" => some .REAL | "DWORD" => some .DWORD | "TIME" => some .TIME
  | "LTIME" => some .LTIME | "DATE" => some .DATE | "TOD" => some .TOD
  | "LTOD" => some .LTOD | "DT" => some .DT | "LDT" => some .LDT
  | "DTL" => some .DTL | "STRING" => some .STRING | "WORD" => some .WORD
  | "BYTE" => some .BYTE | "VOID" => some .VOID | "ANY" => some .ANY
  | "AOM_IDENT" => some .AOM_IDENT | "HW_ANY" => some .HW_ANY
  | "HW_IO" => some SCLTypeEnum.HW_IO | "HW_DEVICE" => some .HW_DEVICE
  | "HW_DPMASTER" => some .HW_DPMASTER | "HW_DPSLAVE" => some .HW_DPSLAVE
  | "HW_IOSYSTEM" => some .HW_IOSYSTEM | "HW_SUBMODULE" => some .HW_SUBMODULE
  | "HW_MODULE" => some .HW_MODULE | "HW_INTERFACE" => some .HW_INTERFACE
  | "HW_IEPORT" => some .HW_IEPORT | "HW_HSC" => some .HW_HSC
  | "HW_PWM" => some .HW_PWM | "HW_PTO" => some .HW_PTO
  | "EVENT_ANY" => some .EVENT_ANY | "EVENT_ATT" => some .EVENT_ATT
  | "EVENT_HWINT" => some .EVENT_HWINT | "OB_ANY" => some .OB_ANY
  | "OB_DELAY" => some .OB_DELAY | "OB_TOD" => some .OB_TOD
  | "OB_CYCLIC" => some .OB_CYCLIC | "OB_ATT" => some .OB_ATT
  | "OB_HWINT" => some .OB_HWINT | "OB_TIMEERROR" => some .OB_TIMEERROR
  | "OB_STARTUP" => some .OB_STARTUP | "CONN_ANY" => some .CONN_ANY
  | "CONN_PRG" => some .CONN_PRG | "CONN_OUC" => some .CONN_OUC
  | "CONN_R_ID" => some .CONN_R_ID | "DB_ANY" => some .DB_ANY
  | "DB_WWW" => some .DB_WWW | "DB_DYN" => some .DB_DYN
  | "REMOTE" => some .REMOTE | "PORT" => some .PORT | "RTM" => some .RTM
  | "PIP" => some .PIP
  | _ => none

/-! ## Type hierarchy (`utils/type-hierarchy.ts`) -/

/-- Source `typeInheritanceMap`: the single-parent inheritance map. -/
def typeInheritanceMap : SCLTypeEnum → Option SCLTypeEnum
  | SCLTypeEnum.HW_IO => some .HW_ANY
  | .HW_DEVICE => some .HW_ANY
  | .HW_DPMASTER => some .HW_INTERFACE
  | .HW_DPSLAVE => some .HW_DEVICE
  | .HW_IOSYSTEM => some .HW_ANY
  | .HW_SUBMODULE => some SCLTypeEnum.HW_IO
  | .HW_MODULE => some SCLTypeEnum.HW_IO
  | .HW_INTERFACE => some .HW_SUBMODULE
  | .HW_IEPORT => some .HW_SUBMODULE
  | .HW_HSC => some .HW_SUBMODULE
  | .HW_PWM => some .HW_SUBMODULE
  | .HW_PTO => some .HW_SUBMODULE
  | .PORT => some .HW_SUBMODULE
  | .EVENT_ATT => some .EVENT_ANY
  | .EVENT_HWINT => some .EVENT_ATT
  | .OB_DELAY => some .OB_ANY
  | .OB_TOD => some .OB_ANY
  | .OB_CYCLIC => some .OB_ANY
  | .OB_ATT => some .OB_ANY
  | .OB_HWINT => some .OB_ATT
  | .OB_TIMEERROR => some .OB_ANY
  | .OB_STARTUP => some .OB_ANY
  | .CONN_PRG => some .CONN_ANY
  | .CONN_OUC => some .CONN_ANY
  | .DB_WWW => some .DB_ANY
  | .DB_DYN => some .DB_ANY
  | _ => none

/-- The `while (typeInheritanceMap.has(currentType))` loop of
`getTypeAncestors`, with fuel.  The map is acyclic with chains of length at
most four, so any fuel of at least `64` computes the full chain. -/
def getTypeAncestorsAux : Nat → SCLTypeEnum → List SCLTypeEnum
  | 0, _ => []
  | fuel + 1, t =>
      match typeInheritanceMap t with
      | none => []
      | some parent => parent :: getTypeAncestorsAux fuel parent

/-- Source `getTypeAncestors`: the ordered ancestor chain of a type. -/
def getTypeAncestors (t : SCLTypeEnum) : List SCLTypeEnum :=
  getTypeAncestorsAux 64 t

/-- The fuel of `64` is saturated: one extra step changes nothing, so
`getTypeAncestors` computes the same chain as the source's unbounded loop. -/
theorem getTypeAncestors_fuel_saturated :
    ∀ t, getTypeAncestorsAux 65 t = getTypeAncestorsAux 64 t := by decide

/-- Source `isTypeAssignable(sourceType, targetType)`. -/
def isTypeAssignable (sourceType targetType : SCLTypeEnum) : Bool :=
  if sourceType = targetType then true
  else (getTypeAncestors sourceType).contains targetType

/-! ## Value extraction and formatting (`utils/type-extractor.ts`) -/

/-- A JavaScript runtime value flowing through `TypeExtractor`.  The values
reaching these code paths come from TypeScript literals: booleans, numeric
literals (non-negative decimal integers, see the module comment) and
strings. -/
inductive JSVal where
  | b (v : Bool)
  | n (v : Nat)
  | s (v : String)
  deriving DecidableEq

/-- JS `String(value)` / `value.toString()`. -/
def jsValToString : JSVal → String
  | .b true => "true"
  | .b false => "false"
  | .n v => toString v
  | .s v => v

/-- JS truthiness for the values above. -/
def jsTruthy : JSVal → Bool
  | .b v => v
  | .n v => v != 0
  | .s v => v != ""

namespace TypeExtractor

/-- The regex `^\d+[smhd]` of the TIME/LTIME configs: one or more digits
followed by a unit character.  (`\d+` is greedy but `[smhd]` only matches
non-digits, so this direct reading is equivalent.) -/
def durPatAux : List Char → Bool
  | [] => false
  | c :: rest => if c.isDigit then durPatAux rest
                 else c == 's' || c == 'm' || c == 'h' || c == 'd'

def durPat (s : String) : Bool :=
  match s.toList with
  | [] => false
  | c :: rest => c.isDigit && durPatAux rest

/-- Consume exactly `k` digits. -/
def takeDigits : Nat → List Char → Option (List Char)
  | 0, cs => some cs
  | _ + 1, [] => none
  | k + 1, c :: cs => if c.isDigit then takeDigits k cs else none

/-- Consume one expected character. -/
def takeChar : Char → List Char → Option (List Char)
  | _, [] => none
  | ch, c :: cs => if c == ch then some cs else none

/-- The regex `^\d{4}-\d{2}-\d{2}` of the DATE config. -/
def datePat (s : String) : Bool :=
  (do
    let cs ← takeDigits 4 s.toList
    let cs ← takeChar '-' cs
    let cs ← takeDigits 2 cs
    let cs ← takeChar '-' cs
    let _ ← takeDigits 2 cs
    pure ()).isSome

/-- The regex `^\d{2}:\d{2}:\d{2}` of the TOD/LTOD configs. -/
def todPat (s : String) : Bool :=
  (do
    let cs ← takeDigits 2 s.toList
    let cs ← takeChar ':' cs
    let cs ← takeDigits 2 cs
    let cs ← takeChar ':' cs
    let _ ← takeDigits 2 cs
    pure ()).isSome

/-- The regex `^\d{4}-\d{2}-\d{2}-\d{2}:\d{2}:\d{2}` of the DT/LDT configs. -/
def dtPatAux (s : String) : Option (List Char) := do
  let cs ← takeDigits 4 s.toList
  let cs ← takeChar '-' cs
  let cs ← takeDigits 2 cs
  let cs ← takeChar '-' cs
  let cs ← takeDigits 2 cs
  let cs ← takeChar '-' cs
  let cs ← takeDigits 2 cs
  let cs ← takeChar ':' cs
  let cs ← takeDigits 2 cs
  let cs ← takeChar ':' cs
  takeDigits 2 cs

def dtPat (s : String) : Bool := (dtPatAux s).isSome

/-- The regex `^\d{4}-\d{2}-\d{2}-\d{2}:\d{2}:\d{2}\.\d{3}` of the DTL config. -/
def dtlPat (s : String) : Bool :=
  (do
    let cs ← dtPatAux s
    let cs ← takeChar '.' cs
    let _ ← takeDigits 3 cs
    pure ()).isSome

/-- One entry of `TIME_CONFIGS`: a literal marker and a shape pattern. -/
structure TimeConfig where
  pfx : String
  pat : String → Bool

/-- Source `TIME_CONFIGS`: the time-family literal configurations, in source order. -/
def TIME_CONFIGS : List (String × TimeConfig) :=
  [ ("TIME", ⟨"T#", durPat⟩)
  , ("LTIME", ⟨"LT#", durPat⟩)
  , ("DATE", ⟨"D#", datePat⟩)
  , ("TOD", ⟨"TOD#", todPat⟩)
  , ("LTOD", ⟨"LTOD#", todPat⟩)
  , ("DT", ⟨"DT#", dtPat⟩)
  , ("LDT", ⟨"LDT#", dtPat⟩)
  , ("DTL", ⟨"DTL#", dtlPat⟩) ]

/-- Source `isTimeValue(value)`. -/
def isTimeValue (value : String) : Bool :=
  TIME_CONFIGS.any (fun c => strStartsWith value c.2.pfx || c.2.pat value)

/-- Source `formatTimeValue(value, prefix)`. -/
def formatTimeValue (value pfx : String) : String :=
  let cleanValue := stripQuotes value
  if strStartsWith cleanValue pfx then cleanValue
  else if strStartsWith cleanValue "T#" && pfx != "T#" then pfx ++ strDrop cleanValue 2
  else pfx ++ cleanValue

/-- Source `formatRealValue(value)`: `toFixed(2)` when the decimal rendering carries
no point (always the case for the integral numbers modelled here). -/
def formatRealValue (v : JSVal) : String :=
  let t := jsValToString v
  if t.toList.contains '.' then t else t ++ ".00"

/-- Source `formatHexValue(value, padLength, prefix)`. -/
def formatHexValue (padLength : Nat) (pfx : String) (v : JSVal) : String :=
  match v with
  | .n value => pfx ++ "#16#" ++ padStart (natToHexUpper value) padLength '0'
  | other => pfx ++ "#16#" ++ padStart (jsValToString other) padLength '0'

/-- Source `formatStringValue(value)`. -/
def formatStringValue (value : String) : String :=
  if value == "" then "''" else "'" ++ value ++ "'"

/-- The `formatters` record.  In the source it is assembled from
`createNumericFormatters`, `createHexFormatters`, `createTimeFormatters`
(one `formatTimeValue` closure per `TIME_CONFIGS` entry),
`createHardwareFormatters`, `createEventFormatters`,
`createConnectionFormatters` and `createMiscFormatters`; together these
spreads cover every member of `SCLTypeEnum`, which this total function makes
explicit.  The time formatters receive strings in the source; `jsValToString`
totalises them over the value type. -/
def formatters : SCLTypeEnum → (JSVal → String)
  | .SINT | .USINT | .INT | .UINT | .DINT | .UDINT | .LINT | .ULINT => jsValToString
  | .REAL => formatRealValue
  | .DWORD => formatHexValue 8 "DW"
  | .WORD => formatHexValue 4 "W"
  | .BYTE => formatHexValue 2 "B"
  | .TIME => fun v => formatTimeValue (jsValToString v) "T#"
  | .LTIME => fun v => formatTimeValue (jsValToString v) "LT#"
  | .DATE => fun v => formatTimeValue (jsValToString v) "D#"
  | .TOD => fun v => formatTimeValue (jsValToString v) "TOD#"
  | .LTOD => fun v => formatTimeValue (jsValToString v) "LTOD#"
  | .DT => fun v => formatTimeValue (jsValToString v) "DT#"
  | .LDT => fun v => formatTimeValue (jsValToString v) "LDT#"
  | .DTL => fun v => formatTimeValue (jsValToString v) "DTL#"
  | .HW_ANY | SCLTypeEnum.HW_IO | .HW_DEVICE | .HW_DPMASTER | .HW_DPSLAVE | .HW_IOSYSTEM
  | .HW_SUBMODULE | .HW_MODULE | .HW_INTERFACE | .HW_IEPORT | .HW_HSC
  | .HW_PWM | .HW_PTO => jsValToString
  | .EVENT_ANY | .EVENT_ATT | .EVENT_HWINT => jsValToString
  | .OB_ANY | .OB_DELAY | .OB_TOD | .OB_CYCLIC | .OB_ATT | .OB_HWINT
  | .OB_TIMEERROR | .OB_STARTUP => jsValToString
  | .CONN_ANY | .CONN_PRG | .CONN_OUC | .CONN_R_ID => jsValToString
  | .DB_ANY | .DB_WWW | .DB_DYN => jsValToString
  | .BOOL => fun v => if jsTruthy v then "TRUE" else "FALSE"
  | .STRING => fun v => formatStringValue (jsValToString v)
  | .VOID => fun _ => ""
  | .ANY | .AOM_IDENT | .REMOTE | .PORT | .RTM | .PIP => jsValToString

/-- Source `extractBrandedType(typeNode)` for the string case: an `SCLTypeEnum[...]`
lookup.  (The callers modelled here always pass strings — either an enum
value, which is its own name, or a type name from the checker.) -/
def extractBrandedType (typeName : String) : Option SCLTypeEnum :=
  sclTypeOfName typeName

/-- Source `getDefaultValue(type)`. -/
def getDefaultValue (type : Option String) : Option String :=
  match type with
  | none => none
  | some t =>
      match extractBrandedType t with
      | some .STRING => some "''"
      | some .WORD => some "W#16#0000"
      | some .BOOL => some "FALSE"
      | some .INT => some "0"
      | some .DINT => some "0"
      | some .REAL => some "0.0"
      | _ => none

/-- Source `formatValue(value, brandedType)`.  Note the source's hard-coded `'T#'`
in the time-string branch. -/
def formatValue (value : JSVal) (brandedType : Option SCLTypeEnum) : String :=
  match brandedType with
  | some bt =>
      match value with
      | .s sv => if isTimeValue sv then formatTimeValue sv "T#" else formatters bt value
      | v => formatters bt v
  | none =>
      match value with
      | .b bv => if bv then "TRUE" else "FALSE"
      | v => jsValToString v

end TypeExtractor

/-! ## Expression IR

The TypeScript expression nodes that the lowering engine dispatches on, by
syntax kind.  Operator tokens (`ts.SyntaxKind` punctuation tokens) are one
shared type `Tok` because the same token kind can occur in binary and unary
position (`-` is `MinusToken` in both, and `needsParentheses` looks a unary
child's operator token up in the binary `OPERATOR_MAP`).

Property-access, call, element-access, object-literal, array-literal and
`as`-expressions have handlers in the source but are not needed by any claim
below; they are outside this model.  `unsupported k` stands for an expression
whose syntax kind `k` is *not* among the registered handler kinds. -/

inductive Tok where
  | eqTok        -- EqualsToken
  | amp          -- AmpersandToken
  | ampAmp       -- AmpersandAmpersandToken
  | bar          -- BarToken
  | barBar       -- BarBarToken
  | caret        -- CaretToken
  | excl         -- ExclamationToken
  | starStar     -- AsteriskAsteriskToken
  | slash        -- SlashToken
  | star         -- AsteriskToken
  | percent      -- PercentToken
  | plus         -- PlusToken
  | minus        -- MinusToken
  | lt           -- LessThanToken
  | gt           -- GreaterThanToken
  | le           -- LessThanEqualsToken
  | ge           -- GreaterThanEqualsToken
  | eqEq         -- EqualsEqualsToken
  | eqEqEq       -- EqualsEqualsEqualsToken
  | exclEq       -- ExclamationEqualsToken
  | exclEqEq     -- ExclamationEqualsEqualsToken
  | plusEq       -- PlusEqualsToken
  | minusEq      -- MinusEqualsToken
  | starEq       -- AsteriskEqualsToken
  | slashEq      -- SlashEqualsToken
  | plusPlus     -- PlusPlusToken
  | minusMinus   -- MinusMinusToken
  deriving DecidableEq, Fintype

/-- Source `ts.SyntaxKind[kind]`, for error messages. -/
def tokKindName : Tok → String
  | .eqTok => "EqualsToken"
  | .amp => "AmpersandToken"
  | .ampAmp => "AmpersandAmpersandToken"
  | .bar => "BarToken"
  | .barBar => "BarBarToken"
  | .caret => "CaretToken"
  | .excl => "ExclamationToken"
  | .starStar => "AsteriskAsteriskToken"
  | .slash => "SlashToken"
  | .star => "AsteriskToken"
  | .percent => "PercentToken"
  | .plus => "PlusToken"
  | .minus => "MinusToken"
  | .lt => "LessThanToken"
  | .gt => "GreaterThanToken"
  | .le => "LessThanEqualsToken"
  | .ge => "GreaterThanEqualsToken"
  | .eqEq => "EqualsEqualsToken"
  | .eqEqEq => "EqualsEqualsEqualsToken"
  | .exclEq => "ExclamationEqualsToken"
  | .exclEqEq => "ExclamationEqualsEqualsToken"
  | .plusEq => "PlusEqualsToken"
  | .minusEq => "MinusEqualsToken"
  | .starEq => "AsteriskEqualsToken"
  | .slashEq => "SlashEqualsToken"
  | .plusPlus => "PlusPlusToken"
  | .minusMinus => "MinusMinusToken"

inductive Expr where
  | ident (name : String)          -- Identifier
  | numLit (n : Nat)               -- NumericLiteral, text `toString n`
  | strLit (text : String)         -- StringLiteral, `.text` (already unquoted)
  | boolLit (b : Bool)             -- TrueKeyword / FalseKeyword
  | preUnary (op : Tok) (operand : Expr)   -- PrefixUnaryExpression
  | postUnary (op : Tok) (operand : Expr)  -- PostfixUnaryExpression
  | binary (op : Tok) (l r : Expr)         -- BinaryExpression
  | paren (e : Expr)               -- ParenthesizedExpression
  | unsupported (kindName : String)
  deriving DecidableEq

namespace TypeExtractor

/-- Source `isLiteral(expr)`: true/false keywords, numeric and string literals. -/
def isLiteral : Expr → Bool
  | .boolLit _ => true
  | .numLit _ => true
  | .strLit _ => true
  | _ => false

/-- Source `extractLiteralValue(literal)`.  String literals are stripped of quote
characters and time-shaped strings are tagged with `T#`. -/
def extractLiteralValue : Expr → Option JSVal
  | .boolLit true => some (.b true)
  | .boolLit false => some (.b false)
  | .numLit n => some (.n n)
  | .strLit raw =>
      let text := stripQuotes raw
      if strStartsWith text "T#" || durPat text then
        some (.s (if strStartsWith text "T#" then text else "T#" ++ text))
      else some (.s text)
  | _ => none

/-- Source `extractRawValue(expr, type)`.  (The `type` argument is only consulted
for array literals, which are outside this model.) -/
def extractRawValue (expr : Expr) : Option JSVal :=
  match expr with
  | .boolLit true => some (.b true)
  | .boolLit false => some (.b false)
  | e => if isLiteral e then extractLiteralValue e else none

/-- Source `extractValue(initializer, type)` with a string `type` (either an
`SCLTypeEnum` value, which is its own name, or a checker-provided type
name). -/
def extractValue (initializer : Option Expr) (type : Option String) : Option String :=
  match initializer with
  | none => getDefaultValue type
  | some expr =>
      let brandedType := type.bind extractBrandedType
      match extractRawValue expr with
      | none => getDefaultValue type
      | some value => some (formatValue value brandedType)

end TypeExtractor

/-! ## Expression lowering engine (`SCLExpressionGenerator`) -/

/-- Source `OperatorInfo`: target operator text, precedence rank, associativity.
The precedence ranks are the source's `OperatorPrecedence` enum:
Brackets/Dereference 1, UnaryOperators 2, PowerAndNot 3, Multiplicative 4,
Additive 5, Relational 6, Equality 7, LogicalAnd 8, LogicalXor 9,
LogicalOr 10, Assignment 11. -/
structure OperatorInfo where
  sclOperator : String
  precedence : Nat
  isRightAssociative : Bool := false
  deriving DecidableEq

/-- Source `OPERATOR_MAP`: TypeScript operator token → SCL operator info. -/
def OPERATOR_MAP : Tok → Option OperatorInfo
  | .eqTok => some ⟨":=", 11, true⟩
  | .amp => some ⟨"AND", 8, false⟩
  | .ampAmp => some ⟨"AND", 8, false⟩
  | .bar => some ⟨"OR", 10, false⟩
  | .barBar => some ⟨"OR", 10, false⟩
  | .caret => some ⟨"XOR", 9, false⟩
  | .excl => some ⟨"NOT", 3, false⟩
  | .starStar => some ⟨"**", 3, true⟩
  | .slash => some ⟨"/", 4, false⟩
  | .star => some ⟨"*", 4, false⟩
  | .percent => some ⟨"MOD", 4, false⟩
  | .plus => some ⟨"+", 5, false⟩
  | .minus => some ⟨"-", 5, false⟩
  | .lt => some ⟨"<", 6, false⟩
  | .gt => some ⟨">", 6, false⟩
  | .le => some ⟨"<=", 6, false⟩
  | .ge => some ⟨">=", 6, false⟩
  | .eqEq => some ⟨"=", 7, false⟩
  | .eqEqEq => some ⟨"=", 7, false⟩
  | .exclEq => some ⟨"<>", 7, false⟩
  | .exclEqEq => some ⟨"<>", 7, false⟩
  | _ => none

/-- The precedence rank of a mapped operator token (`0` for unmapped ones);
a convenience for stating theorems. -/
def tokPrecedence (t : Tok) : Nat :=
  match OPERATOR_MAP t with
  | some info => info.precedence
  | none => 0

structure CombinedAssignmentInfo where
  operator : String
  precedence : Nat
  deriving DecidableEq

/-- Source `COMPOUND_OPERATOR_MAP`: compound assignment token → base operator. -/
def COMPOUND_OPERATOR_MAP : Tok → Option CombinedAssignmentInfo
  | .plusEq => some ⟨"+", 5⟩
  | .minusEq => some ⟨"-", 5⟩
  | .starEq => some ⟨"*", 4⟩
  | .slashEq => some ⟨"/", 4⟩
  | _ => none

/-- Source `getOperatorInfo(operatorKind)` — throws for unmapped tokens. -/
def getOperatorInfoE (operatorKind : Tok) : Except String OperatorInfo :=
  match OPERATOR_MAP operatorKind with
  | some info => pure info
  | none => .error ("Unsupported operator: " ++ tokKindName operatorKind)

/-- Source `ts.isLiteralExpression(node)` on the modelled nodes: numeric and string
literals.  (`TrueKeyword`/`FalseKeyword` are *not* literal expressions in the
TypeScript API.) -/
def isLiteralExpression : Expr → Bool
  | .numLit _ => true
  | .strLit _ => true
  | _ => false

/-- Source `isAssignment(node)`. -/
def isAssignment (op : Tok) : Bool :=
  op == .eqTok || (COMPOUND_OPERATOR_MAP op).isSome

/-- Source `isMultipleAssignment(node)`: the right operand is itself an
assignment-like binary expression. -/
def isMultipleAssignmentRight : Expr → Bool
  | .binary op2 _ _ => op2 == .eqTok || (COMPOUND_OPERATOR_MAP op2).isSome
  | _ => false

/-- The AST-parent facts `handleLiteral` inspects on `node.parent`:

* `binCtx leftType` — the parent is a `BinaryExpression`; carries
  `getSCLType(parent.left)` (the checker's answer for the sibling);
* `varDeclCtx varName sclType inFor` — the parent is a
  `VariableDeclaration`; carries the declared name, `getSCLType(parent)` and
  whether `findParentOfType(node, ts.isForStatement)` finds an enclosing for
  statement;
* `propAssignCtx` — the parent is a `PropertyAssignment`;
* `other` — any other parent kind. -/
inductive ParentCtx where
  | other
  | binCtx (leftType : Option SCLTypeEnum)
  | varDeclCtx (varName : String) (sclType : Option SCLTypeEnum) (inFor : Bool)
  | propAssignCtx
  deriving DecidableEq

/-- The external symbol/type-resolution capability (`ts.TypeChecker`),
restricted to the two questions the generator asks:
`SCLTypeEnum[checker.typeToString(checker.getTypeAtLocation(e))]` and
`checker.getTypeAtLocation(e).aliasSymbol?.escapedName`. -/
structure Checker where
  sclTypeOf : Expr → Option SCLTypeEnum
  aliasTypeOf : Expr → Option String

/-- A checker that resolves nothing (plain TypeScript `number`/`boolean`
inferred types are not `SCLTypeEnum` members, so this is the common case for
undecorated locals). -/
def trivChecker : Checker := ⟨fun _ => none, fun _ => none⟩

/-- Source `needsParentheses(expr, parentOp, isRightSide)`.

The source's second guard reads `expr.parent`: it returns `false` when the
parent is a `BinaryExpression` with operator `EqualsToken` and `expr` is its
right operand.  A shallow embedding has no parent pointers, so that fact is
the explicit `isRhsOfEnclosingAssign` argument, computed at each call site
from the node being formatted (which *is* the parent of `expr`). -/
def needsParentheses (expr : Expr) (parentOp : OperatorInfo)
    (isRightSide : Bool) (isRhsOfEnclosingAssign : Bool) : Except String Bool :=
  match expr with
  | .paren _ => pure false
  | expr =>
    if isRhsOfEnclosingAssign then pure false
    else
      match expr with
      | .preUnary op _ => do
          let unaryInfo ← getOperatorInfoE op
          pure (decide (unaryInfo.precedence > parentOp.precedence))
      | .binary op _ _ => do
          let childOp ← getOperatorInfoE op
          -- Special handling for logical operators.
          if childOp.precedence == 8 || childOp.precedence == 10 then
            if parentOp.precedence == 8 || parentOp.precedence == 10 then
              pure (decide (childOp.precedence > parentOp.precedence))
            else pure false
          else if parentOp.precedence == 11 then pure true
          else if childOp.precedence == parentOp.precedence && isRightSide
                  && parentOp.isRightAssociative then pure true
          else pure (decide (childOp.precedence > parentOp.precedence))
      | _ => pure false

/-- Source `handleIdentifier(node)`. -/
def handleIdentifier (name : String) : String :=
  if name == "" then "" else "#" ++ name

/-- Source `handleLiteral(node)`, dispatching on the parent context.  (The
array-literal and `as`-expression fallbacks of the source are outside the
modelled node set; the final fallback returns `''`.) -/
def handleLiteral (node : Expr) (ctx : ParentCtx) : Except String String :=
  match ctx with
  | .binCtx leftType =>
      pure ((TypeExtractor.extractValue (some node) (leftType.map sclTypeName)).getD "")
  | .varDeclCtx varName sclType inFor =>
      let tyStr := sclType.map sclTypeName
      let value := TypeExtractor.extractValue (some node) tyStr
      let defaultValue := TypeExtractor.getDefaultValue tyStr
      if value == defaultValue && !inFor then pure ""
      else
        match value with
        | some v => pure (if v == "" then "" else "#" ++ varName ++ " := " ++ v)
        | none => pure ""
  | .propAssignCtx => .error "Property assignment not supported"
  | .other => pure ""

/-- Source `validateAssignment(left, right)`.  The source first computes
`NodeUtils.findParentOfType(left, ts.isTypeNode)` (and the same for `right`)
and returns immediately when either is `undefined`.  An expression inside a
method body never has a `ts.TypeNode` ancestor, so on the embedded domain
(body expressions) the function always returns without raising; the
`DATA_TYPE_CONFIG` checks are unreachable here. -/
def validateAssignment (_left _right : Expr) : Except String Unit := pure ()

/-- The collection-plus-emission loop of `handleMultipleAssignment` /
`generateAssignmentChain`, fused into one right-spine recursion.

Returns `none` when the loop collects no entry (first generated left-hand
side empty, or non-binary start); otherwise `some (text, lastLeft)` where
`text` is the `';\n'`-joined statement list for this spine (deepest entry
first, exactly the source's `unshift` order) and `lastLeft` is the final
`lastResult` (the shallowest left-hand side), which a shallower entry
consumes as its right-hand value.  A deeper `none` reproduces the source's
mid-loop `break`: the current entry keeps its `right = ''`. -/
def chainEvalWith (gen : Expr → ParentCtx → Except String String) (C : Checker) :
    Expr → Except String (Option (String × String))
  | .binary op l r => do
      let leftExpr ← gen l (.binCtx (C.sclTypeOf l))
      if leftExpr == "" then pure none
      else
        let _ ← validateAssignment l r
        let isComb := (COMPOUND_OPERATOR_MAP op).isSome
        let entryOp := match COMPOUND_OPERATOR_MAP op with
                       | some i => i.operator
                       | none => ":="
        match r with
        | .binary op2 l2 r2 => do
            let sub ← chainEvalWith gen C (.binary op2 l2 r2)
            let lastResult := match sub with
                              | some (_, lastLeft) => lastLeft
                              | none => ""
            let stmt := if isComb then
                          leftExpr ++ " := " ++ leftExpr ++ " " ++ entryOp ++ " " ++ lastResult
                        else leftExpr ++ " := " ++ lastResult
            match sub with
            | some (text, _) => pure (some (text ++ ";\n" ++ stmt, leftExpr))
            | none => pure (some (stmt, leftExpr))
        | _ => do
            let rightExpr ← gen r (.binCtx (C.sclTypeOf l))
            let stmt := if isComb then
                          leftExpr ++ " := " ++ leftExpr ++ " " ++ entryOp ++ " " ++ rightExpr
                        else leftExpr ++ " := " ++ rightExpr
            pure (some (stmt, leftExpr))
  | _ => pure none

/-- Source `generateExpression(node)`, with fuel for structural recursion.  Every
child visit passes the child's parent facts explicitly (see `ParentCtx`).
The branches embed, in order: `handleIdentifier`, `handleLiteral`,
`handlePrefixUnaryExpression`, `handleBinaryExpression` (with
`handleAssignment` dispatching to `handleCombinedAssignment`,
`handleMultipleAssignment` or `handleSimpleAssignment`, and
`formatBinaryExpression` otherwise), `handleParenthesizedExpression`, and
the unsupported-kind `throw` of the handler lookup. -/
def generateExpression (C : Checker) : Nat → Expr → ParentCtx → Except String String
  | 0, _, _ => .error "model: expression recursion fuel exhausted"
  | fuel + 1, e, ctx =>
    match e with
    | .ident name => pure (handleIdentifier name)
    | .numLit n => handleLiteral (.numLit n) ctx
    | .strLit s => handleLiteral (.strLit s) ctx
    | .boolLit b => handleLiteral (.boolLit b) ctx
    | .preUnary op operandNode => do
        let operand ← generateExpression C fuel operandNode .other
        if operand == "" then pure ""
        else if op == .plus || op == .minus then
          -- unary plus / minus, precedence 2
          let opChar := if op == .plus then "+" else "-"
          let opInfo : OperatorInfo := ⟨opChar, 2, false⟩
          let np ← needsParentheses operandNode opInfo false false
          pure (opChar ++ (if np then "(" ++ operand ++ ")" else operand))
        else if op == .excl then
          -- NOT, precedence 3
          let opInfo : OperatorInfo := ⟨"NOT", 3, false⟩
          let np ← needsParentheses operandNode opInfo false false
          pure (opInfo.sclOperator ++ " " ++ (if np then "(" ++ operand ++ ")" else operand))
        else do
          let opInfo ← getOperatorInfoE op
          let np ← needsParentheses operandNode opInfo false false
          pure (opInfo.sclOperator ++ " " ++ (if np then "(" ++ operand ++ ")" else operand))
    | .binary op l r =>
        if isAssignment op then
          match COMPOUND_OPERATOR_MAP op with
          | some info => do
              -- handleCombinedAssignment: a += b  ⇒  a := a + b
              let _ ← validateAssignment l r
              let left ← generateExpression C fuel l (.binCtx (C.sclTypeOf l))
              let lit := if isLiteralExpression r then
                           TypeExtractor.extractValue (some r) (C.aliasTypeOf l)
                         else none
              match lit with
              | some v =>
                  if v != "" then
                    pure (left ++ " := " ++ left ++ " " ++ info.operator ++ " " ++ v)
                  else do
                    let right ← generateExpression C fuel r (.binCtx (C.sclTypeOf l))
                    pure (if left != "" && right != "" then
                            left ++ " := " ++ left ++ " " ++ info.operator ++ " " ++ right
                          else "")
              | none => do
                  let right ← generateExpression C fuel r (.binCtx (C.sclTypeOf l))
                  pure (if left != "" && right != "" then
                          left ++ " := " ++ left ++ " " ++ info.operator ++ " " ++ right
                        else "")
          | none =>
              if isMultipleAssignmentRight r then do
                -- handleMultipleAssignment / generateAssignmentChain
                let chain ← chainEvalWith (fun e2 c2 => generateExpression C fuel e2 c2)
                              C (.binary op l r)
                match chain with
                | some (text, _) => pure text
                | none => .error "TypeError: cannot read properties of an empty assignment chain"
              else do
                -- handleSimpleAssignment
                let _ ← validateAssignment l r
                let left ← generateExpression C fuel l (.binCtx (C.sclTypeOf l))
                let lit := if isLiteralExpression r then
                             TypeExtractor.extractValue (some r) (C.aliasTypeOf l)
                           else none
                match lit with
                | some v =>
                    if v != "" then pure (left ++ " := " ++ v)
                    else do
                      let right ← generateExpression C fuel r (.binCtx (C.sclTypeOf l))
                      pure (if left != "" && right != "" then left ++ " := " ++ right else "")
                | none => do
                    let right ← generateExpression C fuel r (.binCtx (C.sclTypeOf l))
                    pure (if left != "" && right != "" then left ++ " := " ++ right else "")
        else do
          -- formatBinaryExpression
          let opInfo ← getOperatorInfoE op
          let childCtx := ParentCtx.binCtx (C.sclTypeOf l)
          let ls ← generateExpression C fuel l childCtx
          let lnp ← needsParentheses l opInfo false false
          let left := if lnp then "(" ++ ls ++ ")" else ls
          let rs ← generateExpression C fuel r childCtx
          let rnp ← needsParentheses r opInfo true (op == .eqTok)
          let right := if rnp then "(" ++ rs ++ ")" else rs
          pure (left ++ " " ++ opInfo.sclOperator ++ " " ++ right)
    | .postUnary _ _ => .error "Unsupported expression type: PostfixUnaryExpression"
    | .paren inner => do
        let s ← generateExpression C fuel inner .other
        pure (if s == "" then "" else "(" ++ s ++ ")")
    | .unsupported k => .error ("Unsupported expression type: " ++ k)

/-- Source `generateExpression(undefined) = ''`. -/
def generateExpressionOpt (C : Checker) (fuel : Nat) :
    Option Expr → ParentCtx → Except String String
  | none, _ => pure ""
  | some e, ctx => generateExpression C fuel e ctx

/-- Source `generateWrappedExpression(expr, opInfo, isRight)`: the inner text with
parentheses exactly when `needsParentheses` says so.  (`ctx` and the
right-hand-side-of-assignment flag are the explicit parent facts, as
above.) -/
def generateWrappedExpression (C : Checker) (fuel : Nat) (expr : Expr)
    (opInfo : OperatorInfo) (isRight : Bool) (isRhsOfEnclosingAssign : Bool)
    (ctx : ParentCtx) : Except String String := do
  let expStr ← generateExpression C fuel expr ctx
  let np ← needsParentheses expr opInfo isRight isRhsOfEnclosingAssign
  pure (if np then "(" ++ expStr ++ ")" else expStr)

/-! ## Statement IR and lowering engine (`SCLStatementGenerator`) -/

/-- A `ts.VariableDeclaration`: declared name, the checker's
`getSCLType(declaration)` answer, and the optional initializer. -/
structure VarDecl where
  name : String
  sclType : Option SCLTypeEnum
  init : Option Expr
  deriving DecidableEq

/-- A for-statement initializer: a `VariableDeclarationList` or a bare
expression. -/
inductive ForInit where
  | varDecls (ds : List VarDecl)
  | exprInit (e : Expr)
  deriving DecidableEq

/-- The statement kinds with registered handlers, plus `unknown` for any
other syntax kind. -/
inductive Stmt where
  | exprStmt (e : Expr)                                    -- ExpressionStatement
  | ret (e : Option Expr)                                  -- ReturnStatement
  | ifStmt (cond : Expr) (thenS : Stmt) (elseS : Option Stmt)  -- IfStatement
  | block (stmts : List Stmt)                              -- Block
  | forStmt (ini : Option ForInit) (cond : Option Expr)
      (inc : Option Expr) (body : Stmt)                    -- ForStatement
  | whileStmt (cond : Expr) (body : Stmt)                  -- WhileStatement
  | doWhile (body : Stmt) (cond : Expr)                    -- DoStatement
  | breakStmt                                              -- BreakStatement
  | varStmt (decls : List VarDecl)                         -- VariableStatement
  | unknown (kindName : String)

/-- Source `BaseGenerator.indent(code, level)`: prefix each non-blank line with
`level` copies of four spaces. -/
def indent (code : String) (level : Nat) : String :=
  joinLines ((splitLines code).map
    (fun line => if lineIsBlank line then line else indentSpaces level ++ line))

/-- The incrementor analysis of `handleForStatement`: the `(step,
isDescending)` pair after the explicit-incrementor checks (`i += n`,
`i -= n`, `i--`, `--i`); anything else leaves the default `('1', false)`. -/
def computeStep : Option Expr → String × Bool
  | some (.binary .plusEq _ (.numLit n)) => (toString n, false)
  | some (.binary .minusEq _ (.numLit n)) => ("-" ++ toString n, true)
  | some (.postUnary .minusMinus _) => ("-1", true)
  | some (.preUnary .minusMinus _) => ("-1", true)
  | _ => ("1", false)

/-- The initializer literal for the descending-loop inference: the first
declaration's initializer, when it is a numeric literal. -/
def initLitVal : Option ForInit → Option Nat
  | some (.varDecls (⟨_, _, some (.numLit n)⟩ :: _)) => some n
  | _ => none

/-- The bound literal for the descending-loop inference: the condition's
right operand, when the condition is binary with a numeric literal right. -/
def condLitVal : Option Expr → Option Nat
  | some (.binary _ _ (.numLit n)) => some n
  | _ => none

/-- The step selection of `handleForStatement`: the explicit-incrementor
analysis (`computeStep`), then the best-effort descending inference — if no
explicit direction was found, both the initializer and the bound are numeric
literals, the initializer is larger, and the step is still the default `'1'`,
the step becomes `'-1'`. -/
def inferredStep (ini : Option ForInit) (cond : Option Expr) (inc : Option Expr) : String :=
  let sd := computeStep inc
  if !sd.2 then
    match initLitVal ini, condLitVal cond with
    | some n1, some n2 => if n1 > n2 && sd.1 == "1" then "-1" else sd.1
    | _, _ => sd.1
  else sd.1

/-- Source `handleUnknownStatement(node)`: log a warning and contribute no
output. -/
def handleUnknownStatement (_kindName : String) : String := ""

/-- Source `handleBreakStatement(node)`. -/
def handleBreakStatement : String := "    EXIT;\n"

/-- Source `handleVariableStatement(node)`: each declaration's initializer lowers
(in variable-declaration context) to an assignment; empty results are
dropped. -/
def handleVariableStatement (C : Checker) (efuel : Nat) (inFor : Bool)
    (decls : List VarDecl) : Except String String :=
  decls.foldlM (fun acc d => do
    let statement ← generateExpressionOpt C efuel d.init (.varDeclCtx d.name d.sclType inFor)
    pure (if statement != "" then acc ++ statement ++ ";\n" else acc)) ""

/-- Source `handleReturnStatement(node)`. -/
def handleReturnStatement (fn : String) (C : Checker) (efuel : Nat) :
    Option Expr → Except String String
  | some e => do
      let v ← generateExpression C efuel e .other
      pure ("    #" ++ fn ++ " := " ++ v ++ ";\n")
  | none => pure ""

/-- Source `handleExpressionStatement(node)`. -/
def handleExpressionStatement (C : Checker) (efuel : Nat) (e : Expr) :
    Except String String := do
  let s ← generateExpression C efuel e .other
  pure ("    " ++ s ++ ";\n")

/-- Every expression node has positive size (used by the termination
measures below). -/
theorem one_le_sizeOf_expr (e : Expr) : 1 ≤ sizeOf e := by
  cases e <;> simp_arith

mutual

/-- Source `generateStatement`'s handler dispatch.

`fn` is the `currentFunctionName` field, `efuel` the expression-engine fuel,
and `inFor` the explicit stand-in for
`NodeUtils.findParentOfType(node, ts.isForStatement)` — whether the
statement being lowered sits (at any depth) inside a for statement.

The `forStmt` branch is `handleForStatement` (initializer, bound, explicit
step analysis, best-effort descending inference, `BY` elision); `whileStmt`
and `doWhile` embed `handleWhileStatement` and `handleDoWhileStatement`
(with the `!` → `NOT ` rewrite). -/
def generateStatement (fn : String) (C : Checker) (efuel : Nat) (inFor : Bool) :
    Stmt → Except String String
  | .exprStmt e => handleExpressionStatement C efuel e
  | .ret e => handleReturnStatement fn C efuel e
  | .ifStmt cond thenS elseS => do
      let chainText ← genIfChain fn C efuel inFor true cond thenS elseS
      pure (chainText ++ "    END_IF;\n")
  | .block ss => genStmtList fn C efuel inFor ss
  | .forStmt ini cond inc body => do
      -- Extract initializer (typically a variable declaration).
      let initValue ← match ini with
        | some (.varDecls ds) =>
            match ds with
            | [] => .error "TypeError: cannot read initializer of an empty declaration list"
            | d :: _ => generateExpressionOpt C efuel d.init (.varDeclCtx d.name d.sclType true)
        | some (.exprInit _) => pure ""
        | none => pure ""
      -- Extract condition (the TO part).
      let endValue ← match cond with
        | some (.binary _ cl cr) => generateExpression C efuel cr (.binCtx (C.sclTypeOf cl))
        | _ => pure ""
      -- Extract incrementor (the BY part), with the descending inference.
      let step := inferredStep ini cond inc
      let bodyTxt ← generateStatement fn C efuel true body
      let body := indent bodyTxt 2
      -- Omit `BY 1`, the default.
      if step == "1" then
        pure ("    FOR " ++ initValue ++ " TO " ++ endValue ++ " DO\n"
              ++ body ++ "    END_FOR;\n")
      else
        pure ("    FOR " ++ initValue ++ " TO " ++ endValue ++ " BY " ++ step ++ " DO\n"
              ++ body ++ "    END_FOR;\n")
  | .whileStmt cond body => do
      let condTxt ← generateExpression C efuel cond .other
      let bodyTxt ← generateStatement fn C efuel inFor body
      pure ("    WHILE " ++ condTxt ++ " DO\n" ++ indent bodyTxt 2 ++ "    END_WHILE;\n")
  | .doWhile body cond => do
      let condTxt ← generateExpression C efuel cond .other
      let bodyTxt ← generateStatement fn C efuel inFor body
      let formattedCondition := replaceBangWithNot condTxt
      pure ("    REPEAT\n" ++ indent bodyTxt 2
            ++ "    UNTIL " ++ formattedCondition ++ " END_REPEAT;\n")
  | .breakStmt => pure handleBreakStatement
  | .varStmt decls => handleVariableStatement C efuel inFor decls
  | .unknown k => pure (handleUnknownStatement k)
termination_by s => sizeOf s
decreasing_by
  all_goals simp_wf
  all_goals first
    | omega
    | (have h := one_le_sizeOf_expr cond; omega)

/-- The `statements.map(...).join('')` of `handleBlock` and
`generateFunctionBody`. -/
def genStmtList (fn : String) (C : Checker) (efuel : Nat) (inFor : Bool) :
    List Stmt → Except String String
  | [] => pure ""
  | s :: rest => do
      let a ← generateStatement fn C efuel inFor s
      let b ← genStmtList fn C efuel inFor rest
      pure (a ++ b)
termination_by l => sizeOf l

/-- The else-if walking loop of `handleIfStatement`. -/
def genIfChain (fn : String) (C : Checker) (efuel : Nat) (inFor : Bool)
    (isFirst : Bool) (cond : Expr) (thenS : Stmt) (elseS : Option Stmt) :
    Except String String := do
  let condTxt ← generateExpression C efuel cond .other
  let thenTxt ← generateStatement fn C efuel inFor thenS
  let head := (if isFirst then "    IF " else "    ELSIF ") ++ condTxt ++ " THEN\n"
              ++ indent thenTxt 2
  match elseS with
  | some (.ifStmt c2 t2 e2) => do
      let rest ← genIfChain fn C efuel inFor false c2 t2 e2
      pure (head ++ rest)
  | some other => do
      let elseTxt ← generateStatement fn C efuel inFor other
      pure (head ++ "    ELSE\n" ++ indent elseTxt 2)
  | none => pure head
termination_by 1 + sizeOf thenS + sizeOf elseS
decreasing_by
  all_goals simp_wf
  all_goals omega

end

/-- Source `generateFunctionBody(body)`: lower the body's top-level statement list
(not inside any for statement). -/
def generateFunctionBody (fn : String) (C : Checker) (efuel : Nat)
    (stmts : List Stmt) : Except String String :=
  genStmtList fn C efuel false stmts

/-! ## Phase-1 metadata collection (`MainCompiler`)

`processFileAndImports` / `collectMetadataFromFile` of
`core/compilers/main-compiler.ts`, over an abstract environment:

* a file is identified by its path (`String`);
* `imports f` lists the resolved local import paths of `f`
  (`extractImportPaths`);
* `files f` lists the exports of `f`, each being either `some (name,
  category, metadata)` when `getSCLMetadata` yields a block-options record
  with both `name` and `category` present, or `none` otherwise (skipped);
* the registry is the insertion-ordered key/value list of the JS `Map`
  (`Map.set` appends new keys at the end);
* the recursion carries fuel (the source recursion terminates because the
  visited-file set grows; any fuel larger than the file-graph size gives the
  source behaviour, and the claims below hold for every positive fuel).

Metadata payloads are an arbitrary type `Meta`. -/

namespace MainCompiler

/-- Source `createMetadataKey(blockName, blockType)`. -/
def createMetadataKey (blockName blockType : String) : String :=
  blockName ++ ":" ++ blockType

/-- Source `metadataRegistry.has(key)`. -/
def registryHas {Meta : Type} (reg : List (String × Meta)) (k : String) : Bool :=
  reg.any (fun e => e.1 == k)

/-- Source `metadataRegistry.get(key)`. -/
def registryGet {Meta : Type} (reg : List (String × Meta)) (k : String) : Option Meta :=
  (reg.find? (fun e => e.1 == k)).map (·.2)

/-- One exported value of a module: `some (name, category, metadata)` when
`getSCLMetadata(exportedValue)` has `blockOptions.name` and
`blockOptions.category`, `none` otherwise. -/
abbrev ExportEntry (Meta : Type) := Option (String × String × Meta)

/-- The export loop of `collectMetadataFromFile`: register each valid
export under its `(name, category)` key, skipping keys already present
(first writer wins). -/
def collectMetadataFromFile {Meta : Type} (exports : List (ExportEntry Meta))
    (reg : List (String × Meta)) : List (String × Meta) :=
  exports.foldl (fun r e =>
    match e with
    | none => r
    | some (n, c, m) =>
        let k := createMetadataKey n c
        if registryHas r k then r else r ++ [(k, m)]) reg

/-- The mutable compiler state phase 1 touches: the visited-file set and the
metadata registry. -/
structure CollectState (Meta : Type) where
  processedFiles : List String
  metadataRegistry : List (String × Meta)

/-- Source `processFileAndImports(filePath)`: skip already-processed files, mark the
file processed, recurse into its imports, then collect the file's own
metadata.  (The source awaits the import visits before collecting, i.e. the
fold below; the path-pattern skip for the compiler's own sources is
irrelevant to the modelled file graphs.) -/
def processFileAndImports {Meta : Type} (imports : String → List String)
    (files : String → List (ExportEntry Meta)) :
    Nat → CollectState Meta → String → CollectState Meta
  | 0, s, _ => s
  | fuel + 1, s, filePath =>
      if filePath ∈ s.processedFiles then s
      else
        let s1 : CollectState Meta := ⟨filePath :: s.processedFiles, s.metadataRegistry⟩
        let s2 := (imports filePath).foldl (processFileAndImports imports files fuel) s1
        ⟨s2.processedFiles, collectMetadataFromFile (files filePath) s2.metadataRegistry⟩

end MainCompiler

/-! ## Support lemmas -/

/-- Source `Nat.toDigitsCore` never shrinks its accumulator. -/
theorem toDigitsCore_length_mono (b : Nat) :
    ∀ (fuel n : Nat) (ds : List Char),
      ds.length ≤ (Nat.toDigitsCore b fuel n ds).length := by
  intro fuel
  induction fuel with
  | zero => intro n ds; simp [Nat.toDigitsCore]
  | succ f ih =>
      intro n ds
      simp only [Nat.toDigitsCore]
      split
      · simp
      · exact le_trans (by simp) (ih (n / b) (Nat.digitChar (n % b) :: ds))

/-- The decimal rendering of a natural number is never the empty string. -/
theorem natToString_ne_empty (n : Nat) : toString n ≠ "" := by
  show Nat.repr n ≠ ""
  unfold Nat.repr Nat.toDigits
  intro h
  have hdata := congrArg String.data h
  simp only [List.asString, String.data] at hdata
  have hlen := congrArg List.length hdata
  simp only [List.length_nil] at hlen
  revert hlen
  simp only [Nat.toDigitsCore]
  split
  · simp
  · intro hlen
    have h1 := toDigitsCore_length_mono 10 n (n / 10) [Nat.digitChar (n % 10)]
    simp only [List.length_cons, List.length_nil] at h1
    omega

theorem natToString_beq_empty (n : Nat) : (toString n == "") = false := by
  have := natToString_ne_empty n
  simpa using this

namespace MainCompiler

/-- Folding a step that only "grows" the state (for any reflexive,
transitive relation `R`) grows the state. -/
theorem foldl_preserves {α : Type _} {σ : Type _} (R : σ → σ → Prop)
    (hrefl : ∀ s, R s s) (htrans : ∀ a b c, R a b → R b c → R a c)
    (g : σ → α → σ) (hstep : ∀ s a, R s (g s a)) :
    ∀ (l : List α) (s : σ), R s (l.foldl g s) := by
  intro l
  induction l with
  | nil => intro s; exact hrefl s
  | cons a t ih => intro s; exact htrans _ _ _ (hstep s a) (ih (g s a))

/-- A binding present in the registry survives an append. -/
theorem registryGet_append {Meta : Type} (reg : List (String × Meta))
    (e : String × Meta) (k : String) (v : Meta)
    (h : registryGet reg k = some v) : registryGet (reg ++ [e]) k = some v := by
  unfold registryGet at h ⊢
  rw [List.find?_append]
  cases hf : reg.find? (fun x => x.1 == k) with
  | none => rw [hf] at h; simp at h
  | some p => rw [hf] at h; simpa using h

/-- Source `collectMetadataFromFile` never overwrites an existing binding. -/
theorem registryGet_collect {Meta : Type} (exports : List (ExportEntry Meta)) :
    ∀ (reg : List (String × Meta)) (k : String) (v : Meta),
      registryGet reg k = some v →
      registryGet (collectMetadataFromFile exports reg) k = some v := by
  intro reg k v h
  unfold collectMetadataFromFile
  refine foldl_preserves
    (fun r r' => ∀ k v, registryGet r k = some v → registryGet r' k = some v)
    (fun _ _ _ h => h) (fun _ _ _ hab hbc k v h => hbc _ _ (hab _ _ h))
    _ ?_ exports reg k v h
  intro r e k' v' h'
  match e with
  | none => exact h'
  | some (n, c, m) =>
      simp only
      split
      · exact h'
      · exact registryGet_append _ _ _ _ h'

/-- A key already in the registry stays in it. -/
theorem registryHas_mono {Meta : Type} (exports : List (ExportEntry Meta)) :
    ∀ (reg : List (String × Meta)) (k : String),
      registryHas reg k = true →
      registryHas (collectMetadataFromFile exports reg) k = true := by
  intro reg k h
  unfold collectMetadataFromFile
  refine foldl_preserves
    (fun r r' => ∀ k, registryHas r k = true → registryHas r' k = true)
    (fun _ _ h => h) (fun _ _ _ hab hbc k h => hbc _ (hab _ h)) _ ?_ exports reg k h
  intro r e k' h'
  match e with
  | none => exact h'
  | some (n, c, m) =>
      simp only
      split
      · exact h'
      · unfold registryHas at h' ⊢
        simp [List.any_append, h']

/-- Collecting a file that exports `(n, c, m)` leaves the registry with the
key `n:c` present. -/
theorem registryHas_collect_of_mem {Meta : Type} (exports : List (ExportEntry Meta))
    (n c : String) (m : Meta) (hmem : some (n, c, m) ∈ exports) :
    ∀ (reg : List (String × Meta)),
      registryHas (collectMetadataFromFile exports reg) (createMetadataKey n c) = true := by
  induction exports with
  | nil => cases hmem
  | cons e rest ih =>
      intro reg
      rcases List.mem_cons.mp hmem with he | hrest
      · subst he
        show registryHas (collectMetadataFromFile rest _) _ = true
        by_cases hh : registryHas reg (createMetadataKey n c) = true
        · have : registryHas
              (if registryHas reg (createMetadataKey n c) then reg
               else reg ++ [(createMetadataKey n c, m)]) (createMetadataKey n c) = true := by
            rw [if_pos hh]; exact hh
          unfold collectMetadataFromFile
          simp only [List.foldl_cons]
          exact registryHas_mono rest _ _ (by simpa using this)
        · unfold collectMetadataFromFile
          simp only [List.foldl_cons]
          refine registryHas_mono rest _ _ ?_
          simp only [Bool.not_eq_true] at hh
          simp only [hh, if_neg (by simp [hh] : ¬registryHas reg (createMetadataKey n c) = true)]
          unfold registryHas
          simp [List.any_append]
  -- fall through for the tail case
      · have := ih hrest
        unfold collectMetadataFromFile at this ⊢
        simp only [List.foldl_cons]
        exact this _

/-- Source `registryHas` in terms of the key list. -/
theorem registryHas_eq_false_iff {Meta : Type} (reg : List (String × Meta)) (k : String) :
    registryHas reg k = false ↔ k ∉ reg.map Prod.fst := by
  constructor
  · intro h hmem
    rcases List.mem_map.mp hmem with ⟨p, hp, hpk⟩
    have htrue : registryHas reg k = true :=
      List.any_eq_true.mpr ⟨p, hp, by simp [hpk]⟩
    rw [h] at htrue
    cases htrue
  · intro h
    by_contra hne
    have htrue : registryHas reg k = true := by
      cases hb : registryHas reg k
      · exact absurd hb hne
      · rfl
    rcases List.any_eq_true.mp htrue with ⟨p, hp, hpk⟩
    exact h (List.mem_map.mpr ⟨p, hp, by simpa using hpk⟩)

/-- Source `collectMetadataFromFile` preserves key uniqueness. -/
theorem nodupKeys_collect {Meta : Type} (exports : List (ExportEntry Meta)) :
    ∀ (reg : List (String × Meta)),
      (reg.map Prod.fst).Nodup →
      ((collectMetadataFromFile exports reg).map Prod.fst).Nodup := by
  intro reg h
  unfold collectMetadataFromFile
  refine foldl_preserves
    (fun r r' => (r.map Prod.fst).Nodup → (r'.map Prod.fst).Nodup)
    (fun _ h => h) (fun _ _ _ hab hbc h => hbc (hab h)) _ ?_ exports reg h
  intro r e h'
  match e with
  | none => exact h'
  | some (n, c, m) =>
      simp only
      split
      · exact h'
      · next hno =>
          have hnotin : createMetadataKey n c ∉ r.map Prod.fst :=
            (registryHas_eq_false_iff r _).mp (by simpa using hno)
          simp only [List.map_append, List.map_cons, List.map_nil]
          exact List.Nodup.append h' (by simp) (by
            intro a ha hb
            simp only [List.mem_singleton] at hb
            subst hb
            exact hnotin ha)


section ProcessLemmas

variable {Meta : Type} (imports : String → List String)
  (files : String → List (ExportEntry Meta))

/-- Processing only grows the visited-file set. -/
theorem processed_mono :
    ∀ (fuel : Nat) (s : CollectState Meta) (f : String),
      s.processedFiles ⊆ (processFileAndImports imports files fuel s f).processedFiles := by
  intro fuel
  induction fuel with
  | zero => intro s f a ha; simpa [processFileAndImports] using ha
  | succ fl ih =>
      intro s f a ha
      unfold processFileAndImports
      split
      · exact ha
      · have hsub := foldl_preserves (α := String) (σ := CollectState Meta)
          (fun x y => x.processedFiles ⊆ y.processedFiles)
          (fun _ a ha => ha) (fun _ _ _ hab hbc a ha => hbc (hab ha))
          (processFileAndImports imports files fl)
          (fun s' x => ih s' x) (imports f) ⟨f :: s.processedFiles, s.metadataRegistry⟩
        exact hsub (List.mem_cons_of_mem _ ha)

/-- After a (positively fuelled) visit, the file is in the visited set. -/
theorem mem_processed_self (fuel : Nat) (hf : 0 < fuel)
    (s : CollectState Meta) (f : String) :
    f ∈ (processFileAndImports imports files fuel s f).processedFiles := by
  cases fuel with
  | zero => cases hf
  | succ fl =>
      unfold processFileAndImports
      split
      · assumption
      · have hsub := foldl_preserves (α := String) (σ := CollectState Meta)
          (fun x y => x.processedFiles ⊆ y.processedFiles)
          (fun _ a ha => ha) (fun _ _ _ hab hbc a ha => hbc (hab ha))
          (processFileAndImports imports files fl)
          (fun s' x => processed_mono imports files fl s' x)
          (imports f) ⟨f :: s.processedFiles, s.metadataRegistry⟩
        exact hsub (List.mem_cons_self _ _)

/-- The early return: visiting an already-processed file is a no-op. -/
theorem process_of_mem (fuel : Nat) (hf : 0 < fuel)
    (s : CollectState Meta) (f : String) (h : f ∈ s.processedFiles) :
    processFileAndImports imports files fuel s f = s := by
  cases fuel with
  | zero => cases hf
  | succ fl => unfold processFileAndImports; rw [if_pos h]

/-- Phase-1 collection never overwrites an existing registry binding. -/
theorem registryGet_process :
    ∀ (fuel : Nat) (s : CollectState Meta) (f : String) (k : String) (v : Meta),
      registryGet s.metadataRegistry k = some v →
      registryGet (processFileAndImports imports files fuel s f).metadataRegistry k
        = some v := by
  intro fuel
  induction fuel with
  | zero => intro s f k v h; simpa [processFileAndImports] using h
  | succ fl ih =>
      intro s f k v h
      unfold processFileAndImports
      split
      · exact h
      · have hsub := foldl_preserves (α := String) (σ := CollectState Meta)
          (fun x y => ∀ k v, registryGet x.metadataRegistry k = some v →
            registryGet y.metadataRegistry k = some v)
          (fun _ _ _ h => h) (fun _ _ _ hab hbc k v h => hbc _ _ (hab _ _ h))
          (processFileAndImports imports files fl)
          (fun s' x k' v' h' => ih s' x k' v' h')
          (imports f) ⟨f :: s.processedFiles, s.metadataRegistry⟩
        exact registryGet_collect _ _ _ _ (hsub k v h)

/-- Phase-1 collection preserves key uniqueness of the registry. -/
theorem nodup_process :
    ∀ (fuel : Nat) (s : CollectState Meta) (f : String),
      (s.metadataRegistry.map Prod.fst).Nodup →
      ((processFileAndImports imports files fuel s f).metadataRegistry.map Prod.fst).Nodup := by
  intro fuel
  induction fuel with
  | zero => intro s f h; simpa [processFileAndImports] using h
  | succ fl ih =>
      intro s f h
      unfold processFileAndImports
      split
      · exact h
      · have hsub := foldl_preserves (α := String) (σ := CollectState Meta)
          (fun x y => (x.metadataRegistry.map Prod.fst).Nodup →
            (y.metadataRegistry.map Prod.fst).Nodup)
          (fun _ h => h) (fun _ _ _ hab hbc h => hbc (hab h))
          (processFileAndImports imports files fl)
          (fun s' x h' => ih s' x h')
          (imports f) ⟨f :: s.processedFiles, s.metadataRegistry⟩
        exact nodupKeys_collect _ _ (hsub h)

/-- A first visit of `f` registers every valid export of `f`. -/
theorem has_after_process (fuel : Nat) (hf : 0 < fuel)
    (s : CollectState Meta) (f : String) (hnot : f ∉ s.processedFiles)
    (n c : String) (m : Meta) (hmem : some (n, c, m) ∈ files f) :
    registryHas (processFileAndImports imports files fuel s f).metadataRegistry
      (createMetadataKey n c) = true := by
  cases fuel with
  | zero => cases hf
  | succ fl =>
      unfold processFileAndImports
      rw [if_neg hnot]
      exact registryHas_collect_of_mem (files f) n c m hmem _

end ProcessLemmas

end MainCompiler

/-- Source `"" ++ s = s` for strings. -/
theorem str_nil_append (s : String) : "" ++ s = s := by
  cases s with
  | mk data => rfl

/-! ## The claims -/

set_option maxRecDepth 10000 in
set_option maxHeartbeats 1000000 in
/-- Claim C3: source `isTypeAssignable(source, target)` returns true iff `source`
equals `target` or `target` appears in the ancestor chain of `source`
computed by following the single-parent inheritance map to a root; in
particular `HW_MODULE` is assignable to `HW_IO` and to `HW_ANY`, and two
types with no ancestor relationship are not assignable. -/
theorem claim_C3_type_assignability :
    (∀ s t : SCLTypeEnum, isTypeAssignable s t = true ↔ s = t ∨ t ∈ getTypeAncestors s)
    ∧ isTypeAssignable .HW_MODULE SCLTypeEnum.HW_IO = true
    ∧ isTypeAssignable .HW_MODULE .HW_ANY = true
    ∧ (∀ s t : SCLTypeEnum, s ≠ t → t ∉ getTypeAncestors s → s ∉ getTypeAncestors t →
        isTypeAssignable s t = false) := by
  decide

/-- Witness for C3: `HW_MODULE` and `OB_ANY` are unrelated, hence not
assignable. -/
theorem claim_C3_witness :
    isTypeAssignable .HW_MODULE .OB_ANY = false :=
  claim_C3_type_assignability.2.2.2 .HW_MODULE .OB_ANY
    (by decide) (by decide) (by decide)

/-- Claim C7, evaluated at the failing input.  The claim says formatting the
source literal `'T#5s'` at target type `LTIME` yields `'LT#5s'`.  The code's
`formatValue` intercepts *every* time-shaped string with the hard-coded
prefix `'T#'` (`return this.formatTimeValue(value, 'T#')`), so it yields
`'T#5s'` — the per-type formatter built from `TIME_CONFIGS`
(`createTimeFormatters`), which does produce `'LT#5s'` and implements the
prefix rewrite the claim describes, is bypassed for all such values.  The
same happens end-to-end through `extractValue` for a raw `'5s'` literal. -/
theorem claim_C7_time_prefix_bug :
    TypeExtractor.formatValue (.s "T#5s") (some .LTIME) = "T#5s"
    ∧ TypeExtractor.formatters SCLTypeEnum.LTIME (.s "T#5s") = "LT#5s"
    ∧ TypeExtractor.extractValue (some (.strLit "5s")) (some "LTIME") = some "T#5s"
    ∧ "T#5s" ≠ "LT#5s" := by
  decide

/-- Claim C9: Lowering a statement of an unrecognized kind does not raise: it
contributes empty output and the remaining statements still lower; whereas
lowering an expression of an unsupported kind raises an error naming the
syntactic kind. -/
theorem claim_C9_error_severity :
    (∀ (fn : String) (C : Checker) (efuel : Nat) (inFor : Bool) (k : String),
      generateStatement fn C efuel inFor (.unknown k) = .ok (handleUnknownStatement k)
        ∧ handleUnknownStatement k = "")
    ∧ (∀ (fn : String) (C : Checker) (efuel : Nat) (pre post : List Stmt) (k : String),
      generateFunctionBody fn C efuel (pre ++ .unknown k :: post)
        = generateFunctionBody fn C efuel (pre ++ post))
    ∧ (∀ (C : Checker) (fuel : Nat) (ctx : ParentCtx) (k : String),
      generateExpression C (fuel + 1) (.unsupported k) ctx
        = .error ("Unsupported expression type: " ++ k)) := by
  refine ⟨fun fn C efuel inFor k => ⟨by simp [generateStatement]; rfl, rfl⟩, ?_,
    fun C fuel ctx k => rfl⟩
  intro fn C efuel pre post k
  unfold generateFunctionBody
  induction pre with
  | nil =>
      simp only [List.nil_append]
      cases hres : genStmtList fn C efuel false post with
      | error e =>
          simp [genStmtList, generateStatement, handleUnknownStatement, hres]
      | ok str =>
          simp [genStmtList, generateStatement, handleUnknownStatement, hres, str_nil_append]
  | cons s rest ih =>
      simp only [List.cons_append, genStmtList]
      rw [ih]

/-- Claim C10: Loose and strict comparison operators are indistinguishable in
the output: for all operands, `a == b` and `a === b` lower identically
(target operator `=`), and `a != b` and `a !== b` lower identically (target
operator `<>`). -/
theorem claim_C10_equality_operators :
    (∀ (C : Checker) (fuel : Nat) (a b : Expr) (ctx : ParentCtx),
      generateExpression C fuel (.binary .eqEq a b) ctx
        = generateExpression C fuel (.binary .eqEqEq a b) ctx)
    ∧ (∀ (C : Checker) (fuel : Nat) (a b : Expr) (ctx : ParentCtx),
      generateExpression C fuel (.binary .exclEq a b) ctx
        = generateExpression C fuel (.binary .exclEqEq a b) ctx)
    ∧ generateExpression trivChecker 4 (.binary .eqEq (.ident "x") (.ident "y")) .other
        = .ok "#x = #y"
    ∧ generateExpression trivChecker 4 (.binary .exclEq (.ident "x") (.ident "y")) .other
        = .ok "#x <> #y" := by
  refine ⟨fun C fuel a b ctx => ?_, fun C fuel a b ctx => ?_, by decide, by decide⟩
  · cases fuel with
    | zero => rfl
    | succ f => rfl
  · cases fuel with
    | zero => rfl
    | succ f => rfl

/-- Claim C4: Phase-1 metadata collection is idempotent: visiting an
already-processed file is a no-op (in particular a second visit of the same
file, reached through any import path), an existing `(name, category)`
registry binding is never overwritten during collection, key uniqueness is
preserved (each declaration registered exactly once), and a first visit does
register every valid export under its key. -/
theorem claim_C4_collection_idempotent {Meta : Type}
    (imports : String → List String) (files : String → List (MainCompiler.ExportEntry Meta))
    (fuel fuel' : Nat) (s : MainCompiler.CollectState Meta) (f : String)
    (hfuel : 0 < fuel) (hfuel' : 0 < fuel') :
    (f ∈ s.processedFiles → MainCompiler.processFileAndImports imports files fuel s f = s)
    ∧ MainCompiler.processFileAndImports imports files fuel'
        (MainCompiler.processFileAndImports imports files fuel s f) f
        = MainCompiler.processFileAndImports imports files fuel s f
    ∧ (∀ k v, MainCompiler.registryGet s.metadataRegistry k = some v →
        MainCompiler.registryGet
          (MainCompiler.processFileAndImports imports files fuel s f).metadataRegistry k
          = some v)
    ∧ ((s.metadataRegistry.map Prod.fst).Nodup →
        ((MainCompiler.processFileAndImports imports files fuel s f).metadataRegistry.map
          Prod.fst).Nodup)
    ∧ (∀ n c m, some (n, c, m) ∈ files f → f ∉ s.processedFiles →
        MainCompiler.registryHas
          (MainCompiler.processFileAndImports imports files fuel s f).metadataRegistry
          (MainCompiler.createMetadataKey n c) = true) :=
  ⟨fun h => MainCompiler.process_of_mem imports files fuel hfuel s f h,
    MainCompiler.process_of_mem imports files fuel' hfuel' _ f
      (MainCompiler.mem_processed_self imports files fuel hfuel s f),
    fun k v h => MainCompiler.registryGet_process imports files fuel s f k v h,
    fun h => MainCompiler.nodup_process imports files fuel s f h,
    fun n c m hm hnot => MainCompiler.has_after_process imports files fuel hfuel s f hnot n c m hm⟩

/-- Witness for C4: a one-file graph.  The second visit is a no-op, the
pre-existing `Conveyor:DB` binding survives, and the visited file's
`MotorA` function-block metadata is registered. -/
theorem claim_C4_witness :
    MainCompiler.processFileAndImports (fun _ => ([] : List String))
        (fun p => if p = "main" then [some ("MotorA", "FB", (1 : Nat))] else []) 1
        (MainCompiler.processFileAndImports (fun _ => [])
          (fun p => if p = "main" then [some ("MotorA", "FB", (1 : Nat))] else []) 1
          ⟨[], [("Conveyor:DB", 7)]⟩ "main") "main"
      = MainCompiler.processFileAndImports (fun _ => [])
          (fun p => if p = "main" then [some ("MotorA", "FB", (1 : Nat))] else []) 1
          ⟨[], [("Conveyor:DB", 7)]⟩ "main"
    ∧ MainCompiler.registryGet
        (MainCompiler.processFileAndImports (fun _ => ([] : List String))
          (fun p => if p = "main" then [some ("MotorA", "FB", (1 : Nat))] else []) 1
          ⟨[], [("Conveyor:DB", 7)]⟩ "main").metadataRegistry "Conveyor:DB" = some 7
    ∧ MainCompiler.registryHas
        (MainCompiler.processFileAndImports (fun _ => ([] : List String))
          (fun p => if p = "main" then [some ("MotorA", "FB", (1 : Nat))] else []) 1
          ⟨[], [("Conveyor:DB", 7)]⟩ "main").metadataRegistry
        (MainCompiler.createMetadataKey "MotorA" "FB") = true := by
  have h := claim_C4_collection_idempotent (fun _ => ([] : List String))
    (fun p => if p = "main" then [some ("MotorA", "FB", (1 : Nat))] else []) 1 1
    ⟨[], [("Conveyor:DB", 7)]⟩ "main" (by decide) (by decide)
  exact ⟨h.2.1, h.2.2.1 "Conveyor:DB" 7 rfl,
    h.2.2.2.2 "MotorA" "FB" 1 (by simp) (by simp)⟩

/-! ### C1 — precedence round-trip -/

/-- The inner expression `inner(a, b)` of the precedence round-trip (for the
unary `NOT` token the applied shape is `inner(a)`). -/
def mkInnerExpr (t : Tok) : Expr :=
  if t = .excl then .preUnary .excl (.ident "a") else .binary t (.ident "a") (.ident "b")

/-- Lowering of `outer(inner(a, b), c)` (for unary `NOT` as outer:
`outer(inner(a, b))`). -/
def lowerOuterInner (outer inner : Tok) : Except String String :=
  if outer = .excl then
    generateExpression trivChecker 8 (.preUnary .excl (mkInnerExpr inner)) .other
  else
    generateExpression trivChecker 8 (.binary outer (mkInnerExpr inner) (.ident "c")) .other

/-- The inner expression lowered on its own (no wrapping). -/
def innerFlatText (inner : Tok) : Except String String :=
  generateExpression trivChecker 8 (mkInnerExpr inner) (.binCtx none)

/-- The round-trip output with the inner expression parenthesized. -/
def expectedWrapped (outer inner : Tok) : Except String String := do
  let it ← innerFlatText inner
  let oi ← getOperatorInfoE outer
  if outer = .excl then pure ("NOT (" ++ it ++ ")")
  else pure ("(" ++ it ++ ") " ++ oi.sclOperator ++ " #c")

/-- The round-trip output with the inner expression left bare. -/
def expectedFlat (outer inner : Tok) : Except String String := do
  let it ← innerFlatText inner
  let oi ← getOperatorInfoE outer
  if outer = .excl then pure ("NOT " ++ it)
  else pure (it ++ " " ++ oi.sclOperator ++ " #c")

/-- The amended round-trip property as a decidable check over one operator
pair (trivially true for pairs outside `OPERATOR_MAP` or with a logical
and/or inner operator, which C2 covers). -/
def c1check (outer inner : Tok) : Bool :=
  match OPERATOR_MAP outer, OPERATOR_MAP inner with
  | some oi, some ii =>
      if ii.precedence = 8 ∨ ii.precedence = 10 then true
      else
        (if oi.precedence < ii.precedence then
          lowerOuterInner outer inner == expectedWrapped outer inner
        else true)
        && (if ii.precedence ≤ oi.precedence ∧ oi.isRightAssociative = false then
          lowerOuterInner outer inner == expectedFlat outer inner
        else true)
  | _, _ => true

set_option maxRecDepth 10000 in
set_option maxHeartbeats 2000000 in
theorem c1check_true : ∀ outer inner : Tok, c1check outer inner = true := by decide

/-- Claim C1, counterexample.  The claim quantifies over *every* supported
operator pair with outer rank < inner rank.  For outer `*` (rank 4) and
inner `&&` (rank 8) the rank condition holds, yet lowering
`(a && b) * c` leaves the inner expression unparenthesized — the
`needsParentheses` special case returns `false` for a logical and/or child
under a parent outside the and/or group. -/
theorem claim_C1_counterexample :
    tokPrecedence .star < tokPrecedence .ampAmp
    ∧ generateExpression trivChecker 8
        (.binary .star (.binary .ampAmp (.ident "a") (.ident "b")) (.ident "c")) .other
      = .ok "#a AND #b * #c"
    ∧ ("#a AND #b * #c" : String) ≠ "(#a AND #b) * #c" := by
  decide

/-- Claim C1, amended:  For every pair of `OPERATOR_MAP` operators (outer,
inner) whose inner operator is *not* in the logical and/or group (rank 8 or
10): if outer rank < inner rank, lowering `outer(inner(a,b), c)` wraps the
inner expression in parentheses; if outer rank ≥ inner rank and the outer
operator is not right-associative, it does not.  (And/or inner operators
follow C2's rule instead.) -/
theorem claim_C1_amended_precedence :
    ∀ (outer inner : Tok) (oi ii : OperatorInfo),
      OPERATOR_MAP outer = some oi → OPERATOR_MAP inner = some ii →
      ii.precedence ≠ 8 → ii.precedence ≠ 10 →
      ((oi.precedence < ii.precedence →
          lowerOuterInner outer inner = expectedWrapped outer inner)
        ∧ (ii.precedence ≤ oi.precedence → oi.isRightAssociative = false →
          lowerOuterInner outer inner = expectedFlat outer inner)) := by
  intro outer inner oi ii ho hi h8 h10
  have h := c1check_true outer inner
  unfold c1check at h
  rw [ho, hi] at h
  dsimp only at h
  rw [if_neg (by tauto)] at h
  rw [Bool.and_eq_true] at h
  obtain ⟨h1, h2⟩ := h
  constructor
  · intro hlt
    rw [if_pos hlt] at h1
    exact eq_of_beq h1
  · intro hle hra
    rw [if_pos ⟨hle, hra⟩] at h2
    exact eq_of_beq h2

/-- Witness for the amended C1: `*` over `+` wraps (4 < 5); `==` over `+`
stays flat (7 ≥ 5, non-right-associative). -/
theorem claim_C1_witness :
    lowerOuterInner .star .plus = expectedWrapped .star .plus
    ∧ lowerOuterInner .eqEq .plus = expectedFlat .eqEq .plus :=
  ⟨(claim_C1_amended_precedence .star .plus ⟨"*", 4, false⟩ ⟨"+", 5, false⟩ rfl rfl
      (by decide) (by decide)).1 (by decide),
    (claim_C1_amended_precedence .eqEq .plus ⟨"=", 7, false⟩ ⟨"+", 5, false⟩ rfl rfl
      (by decide) (by decide)).2 (by decide) rfl⟩

/-! ### C2 — and/or children -/

/-- Claim C2: A binary child whose operator is logical AND or OR is
parenthesized exactly when the parent operator is also in the and/or group
(rank 8 or 10) and the child binds looser; under any parent outside that
group such a child is never parenthesized.  The two concrete lowerings show
it end to end: `(a || b) + c` stays flat, `(a || b) && c` is wrapped. -/
theorem claim_C2_logical_child_parens :
    (∀ (parentOp : OperatorInfo) (ct : Tok) (l r : Expr) (isRight : Bool),
      ct = .amp ∨ ct = .ampAmp ∨ ct = .bar ∨ ct = .barBar →
      needsParentheses (.binary ct l r) parentOp isRight false
        = pure (decide ((parentOp.precedence = 8 ∨ parentOp.precedence = 10)
            ∧ parentOp.precedence < tokPrecedence ct)))
    ∧ generateExpression trivChecker 8
        (.binary .plus (.binary .barBar (.ident "a") (.ident "b")) (.ident "c")) .other
      = .ok "#a OR #b + #c"
    ∧ generateExpression trivChecker 8
        (.binary .ampAmp (.binary .barBar (.ident "a") (.ident "b")) (.ident "c")) .other
      = .ok "(#a OR #b) AND #c" := by
  refine ⟨?_, by decide, by decide⟩
  intro parentOp ct l r isRight hct
  rcases hct with rfl | rfl | rfl | rfl <;>
    by_cases hp8 : parentOp.precedence = 8 <;>
      by_cases hp10 : parentOp.precedence = 10 <;>
        simp [needsParentheses, getOperatorInfoE, OPERATOR_MAP, tokPrecedence, hp8, hp10]

/-- Witness for C2: an `&&` child under a multiplicative parent is not
parenthesized. -/
theorem claim_C2_witness :
    needsParentheses (.binary .ampAmp (.ident "a") (.ident "b")) ⟨"*", 4, false⟩ false false
      = pure false := by
  have h := claim_C2_logical_child_parens.1 ⟨"*", 4, false⟩ .ampAmp
    (.ident "a") (.ident "b") false (Or.inr (Or.inl rfl))
  rw [h]
  decide

/-! ### C5 — compound assignment folding -/

/-- Source `"#" ++ s` is never empty. -/
theorem hash_append_beq_empty (s : String) : ("#" ++ s == "") = false := by
  cases s with
  | mk d => rfl

theorem hash_append_ne_empty (s : String) : "#" ++ s ≠ "" := by
  cases s with
  | mk d =>
      intro h
      have hd := congrArg String.data h
      simp [String.append] at hd

/-- A checker for a class with an `INT`-aliased field `errorCount`. -/
def intFieldChecker : Checker :=
  ⟨fun _ => none, fun e => if e = .ident "errorCount" then some "INT" else none⟩

/-- Claim C5: A compound assignment (`+=`, `-=`, `*=`, `/=`) lowers to the
folded form `lhs := lhs <op> rhs` with the corresponding base operator; in
particular the integer-field statement `errorCount += 1;` lowers to
`    #errorCount := #errorCount + 1;`. -/
theorem claim_C5_compound_assignment :
    (∀ (op : Tok) (info : CombinedAssignmentInfo) (C : Checker) (fuel : Nat)
        (lname rname : String) (ctx : ParentCtx),
      COMPOUND_OPERATOR_MAP op = some info → lname ≠ "" → rname ≠ "" →
      generateExpression C (fuel + 2) (.binary op (.ident lname) (.ident rname)) ctx
        = .ok ("#" ++ lname ++ " := " ++ ("#" ++ lname) ++ " " ++ info.operator ++ " "
              ++ ("#" ++ rname)))
    ∧ generateStatement "f" intFieldChecker 8 false
        (.exprStmt (.binary .plusEq (.ident "errorCount") (.numLit 1)))
      = .ok "    #errorCount := #errorCount + 1;\n" := by
  constructor
  · intro op info C fuel lname rname ctx hop hl hr
    have hl' : (lname == "") = false := by simpa using hl
    have hr' : (rname == "") = false := by simpa using hr
    cases op <;> simp only [COMPOUND_OPERATOR_MAP, Option.some.injEq] at hop <;>
      try exact absurd hop (by simp)
    all_goals subst hop
    all_goals
      simp [generateExpression, isAssignment, COMPOUND_OPERATOR_MAP, isLiteralExpression,
        validateAssignment, handleIdentifier, hl', hr', hash_append_beq_empty,
        hash_append_ne_empty]
    all_goals rfl
  · have hval : TypeExtractor.extractValue (some (.numLit 1)) (some "INT") = some "1" := by
      decide
    simp [generateStatement, handleExpressionStatement, generateExpression, isAssignment,
      COMPOUND_OPERATOR_MAP, isLiteralExpression, validateAssignment, handleIdentifier,
      intFieldChecker, hval]
    rfl

/-- Witness for C5 at `x -= y`. -/
theorem claim_C5_witness :
    generateExpression trivChecker 2 (.binary .minusEq (.ident "x") (.ident "y")) .other
      = .ok ("#" ++ "x" ++ " := " ++ ("#" ++ "x") ++ " " ++ "-" ++ " " ++ ("#" ++ "y")) :=
  claim_C5_compound_assignment.1 .minusEq ⟨"-", 5⟩ trivChecker 0 "x" "y" .other rfl
    (by decide) (by decide)

/-! ### C6 — for-loop direction inference -/

/-- Claim C6: With a bare increment (`i++`, giving no explicit direction) and
literal initializer and bound: the step becomes `-1` exactly when the
initializer exceeds the bound (otherwise it stays the default `1`), and the
two scenario loops show the emitted text: `10 → 0` gets `BY -1`, `0 → 10`
gets no `BY` clause. -/
theorem claim_C6_loop_direction :
    (∀ (n1 n2 : Nat) (cop : Tok) (vname : String),
      inferredStep (some (.varDecls [⟨vname, none, some (.numLit n1)⟩]))
          (some (.binary cop (.ident vname) (.numLit n2)))
          (some (.postUnary .plusPlus (.ident vname)))
        = if n2 < n1 then "-1" else "1")
    ∧ generateStatement "f" trivChecker 8 false
        (.forStmt (some (.varDecls [⟨"i", none, some (.numLit 10)⟩]))
          (some (.binary .gt (.ident "i") (.numLit 0)))
          (some (.postUnary .plusPlus (.ident "i")))
          (.block []))
      = .ok "    FOR #i := 10 TO 0 BY -1 DO\n    END_FOR;\n"
    ∧ generateStatement "f" trivChecker 8 false
        (.forStmt (some (.varDecls [⟨"i", none, some (.numLit 0)⟩]))
          (some (.binary .lt (.ident "i") (.numLit 10)))
          (some (.postUnary .plusPlus (.ident "i")))
          (.block []))
      = .ok "    FOR #i := 0 TO 10 DO\n    END_FOR;\n" := by
  have h10 : TypeExtractor.extractValue (some (Expr.numLit 10)) none = some "10" := by decide
  have h0 : TypeExtractor.extractValue (some (Expr.numLit 0)) none = some "0" := by decide
  have hd : TypeExtractor.getDefaultValue none = none := rfl
  refine ⟨?_, ?_, ?_⟩
  · intro n1 n2 cop vname
    simp [inferredStep, computeStep, initLitVal, condLitVal]
  · simp [generateStatement, genStmtList, generateExpressionOpt, generateExpression,
      handleLiteral, h10, h0, hd, trivChecker, inferredStep, computeStep,
      initLitVal, condLitVal, indent, splitLines, splitLinesAux, joinLines, lineIsBlank,
      indentSpaces]
    rfl
  · simp [generateStatement, genStmtList, generateExpressionOpt, generateExpression,
      handleLiteral, h10, h0, hd, trivChecker, inferredStep, computeStep,
      initLitVal, condLitVal, indent, splitLines, splitLinesAux, joinLines, lineIsBlank,
      indentSpaces]
    rfl

/-! ### C8 — default-value elision -/

/-- Claim C8, counterexample.  The exception in the code is not limited to
the loop-control position: `findParentOfType(node, ts.isForStatement)` finds
*any* enclosing for statement.  A `BOOL` local initialized to `false`
(its type's default, second conjunct) inside a for-loop *body* — not a
control position — still emits `#b := FALSE;`, where the claim says the
initialization is omitted; the same declaration outside any loop is omitted
(third conjunct). -/
theorem claim_C8_counterexample :
    generateStatement "f" trivChecker 8 false
      (.forStmt (some (.varDecls [⟨"i", none, some (.numLit 0)⟩]))
        (some (.binary .lt (.ident "i") (.numLit 3)))
        (some (.postUnary .plusPlus (.ident "i")))
        (.varStmt [⟨"b", some .BOOL, some (.boolLit false)⟩]))
      = .ok "    FOR #i := 0 TO 3 DO\n        #b := FALSE;\n    END_FOR;\n"
    ∧ TypeExtractor.extractValue (some (.boolLit false)) (some (sclTypeName .BOOL))
      = TypeExtractor.getDefaultValue (some (sclTypeName .BOOL))
    ∧ generateStatement "f" trivChecker 8 false
        (.varStmt [⟨"b", some .BOOL, some (.boolLit false)⟩])
      = .ok "" := by
  have hini : generateExpressionOpt trivChecker 8 (some (Expr.numLit 0))
      (.varDeclCtx "i" none true) = .ok "#i := 0" := by decide
  have hend : generateExpression trivChecker 8 (Expr.numLit 3) (.binCtx none)
      = .ok "3" := by decide
  have hstep : inferredStep (some (.varDecls [⟨"i", none, some (.numLit 0)⟩]))
      (some (.binary .lt (.ident "i") (.numLit 3)))
      (some (.postUnary .plusPlus (.ident "i"))) = "1" := by decide
  have hvs : handleVariableStatement trivChecker 8 true
      [⟨"b", some SCLTypeEnum.BOOL, some (.boolLit false)⟩] = .ok "#b := FALSE;\n" := by
    decide
  have hvs0 : handleVariableStatement trivChecker 8 false
      [⟨"b", some SCLTypeEnum.BOOL, some (.boolLit false)⟩] = .ok "" := by decide
  have hind : indent "#b := FALSE;\n" 2 = "        #b := FALSE;\n" := by decide
  refine ⟨?_, by decide, ?_⟩
  · simp [generateStatement, trivChecker, hini, hend, hstep, hvs, hind]
    rfl
  · simp [generateStatement, hvs0]

/-- Claim C8, amended:  A literal initializer whose formatted value equals
its declared type's default produces no initialization statement — except
when the literal sits anywhere inside an enclosing for statement (control
position *or* body), where the initialization is always emitted (for any
non-empty formatted value).  The two statement-level conjuncts instantiate
the elision for a `BOOL` field at `false` and an `INT` field at `0`; the
last conjunct shows the same default literal retained in a for-loop
initializer. -/
theorem claim_C8_amended_default_elision :
    (∀ (lit : Expr) (name : String) (ty : Option SCLTypeEnum),
      TypeExtractor.extractValue (some lit) (ty.map sclTypeName)
          = TypeExtractor.getDefaultValue (ty.map sclTypeName) →
      handleLiteral lit (.varDeclCtx name ty false) = .ok "")
    ∧ (∀ (lit : Expr) (name : String) (ty : Option SCLTypeEnum) (v : String),
      TypeExtractor.extractValue (some lit) (ty.map sclTypeName) = some v → v ≠ "" →
      handleLiteral lit (.varDeclCtx name ty true) = .ok ("#" ++ name ++ " := " ++ v))
    ∧ generateStatement "f" trivChecker 8 false
        (.varStmt [⟨"b", some .BOOL, some (.boolLit false)⟩]) = .ok ""
    ∧ generateStatement "f" trivChecker 8 false
        (.varStmt [⟨"n", some .INT, some (.numLit 0)⟩]) = .ok ""
    ∧ generateStatement "f" trivChecker 8 false
        (.forStmt (some (.varDecls [⟨"n", some .INT, some (.numLit 0)⟩]))
          (some (.binary .lt (.ident "n") (.numLit 3)))
          (some (.postUnary .plusPlus (.ident "n")))
          (.block []))
      = .ok "    FOR #n := 0 TO 3 DO\n    END_FOR;\n" := by
  have hvsb : handleVariableStatement trivChecker 8 false
      [⟨"b", some SCLTypeEnum.BOOL, some (.boolLit false)⟩] = .ok "" := by decide
  have hvsn : handleVariableStatement trivChecker 8 false
      [⟨"n", some SCLTypeEnum.INT, some (.numLit 0)⟩] = .ok "" := by decide
  have hini : generateExpressionOpt trivChecker 8 (some (Expr.numLit 0))
      (.varDeclCtx "n" (some SCLTypeEnum.INT) true) = .ok "#n := 0" := by decide
  have hend : generateExpression trivChecker 8 (Expr.numLit 3) (.binCtx none)
      = .ok "3" := by decide
  have hstep : inferredStep (some (.varDecls [⟨"n", some SCLTypeEnum.INT, some (.numLit 0)⟩]))
      (some (.binary .lt (.ident "n") (.numLit 3)))
      (some (.postUnary .plusPlus (.ident "n"))) = "1" := by decide
  refine ⟨?_, ?_, ?_, ?_, ?_⟩
  · intro lit name ty h
    simp [handleLiteral, h]
    rfl
  · intro lit name ty v h hv
    have hv' : (v == "") = false := by simpa using hv
    simp [handleLiteral, h, hv']
    rfl
  · simp [generateStatement, hvsb]
  · simp [generateStatement, hvsn]
  · simp [generateStatement, genStmtList, trivChecker, hini, hend, hstep, indent,
      splitLines, splitLinesAux, joinLines, lineIsBlank, indentSpaces]
    rfl

/-- Witness for the amended C8 at the `BOOL` / `false` instance. -/
theorem claim_C8_witness :
    handleLiteral (.boolLit false) (.varDeclCtx "b" (some .BOOL) false) = .ok ""
    ∧ handleLiteral (.boolLit false) (.varDeclCtx "b" (some .BOOL) true)
      = .ok ("#" ++ "b" ++ " := " ++ "FALSE") :=
  ⟨claim_C8_amended_default_elision.1 (.boolLit false) "b" (some .BOOL) (by decide),
    claim_C8_amended_default_elision.2.1 (.boolLit false) "b" (some .BOOL) "FALSE"
      (by decide) (by decide)⟩

end Ts2scl
